import Mathlib

/-!
Verification of the PBIX archive inspector (`src/pbix_analyzer/analyzer.py`).

The inspector is a thin wrapper around a ZIP-archive reader: it validates a
candidate path at construction time (existence, then a case-insensitive
".pbix" extension check) and lazily enumerates the archive's entries,
formatting each entry's size with thousands separators.

The embedding below models the filesystem as a partial map from path strings
to files; a file carries the result of attempting to parse its bytes as a
ZIP container: `some entries` when the central directory is readable and
`none` when `zipfile.ZipFile` would raise `BadZipFile`.  Python's two
exception classes that the module raises, `FileNotFoundError` and
`ValueError`, become the two constructors of `PyError`.
-/

namespace PbixAnalyzer

/-- One entry of a ZIP archive's central directory, as exposed by
`zipfile.ZipInfo`: the entry name and its uncompressed byte count. -/
structure ZipInfo where
  filename : String
  file_size : Nat
deriving DecidableEq, Repr

/-- A file on disk, abstracted to what the analyzer observes: the result of
parsing its bytes as a ZIP container (`none` models `zipfile.BadZipFile`). -/
structure FsFile where
  zipData : Option (List ZipInfo)
deriving DecidableEq, Repr

/-- The filesystem: a partial map from path strings to files. -/
abbrev FS := String → Option FsFile

/-- The exception classes raised by `analyzer.py`: `FileNotFoundError` for a
missing path and `ValueError` for both the extension check and the corrupt
archive case. -/
inductive PyError where
  | fileNotFoundError (msg : String)
  | valueError (msg : String)
deriving DecidableEq, Repr

/-- The exception class of an error, forgetting the message string. -/
inductive PyErrorKind where
  | fileNotFound
  | value
deriving DecidableEq, Repr

/-- Map an error to its exception class. -/
def PyError.kind : PyError → PyErrorKind
  | .fileNotFoundError _ => .fileNotFound
  | .valueError _ => .value

/-- The exception class of a failed computation, `none` on success. -/
def errKind {α : Type} : Except PyError α → Option PyErrorKind
  | .error e => some e.kind
  | .ok _ => none

/-- Split a character list at every occurrence of the separator `c`, the
way `str.split` does: `splitChar '/' "a//b".data = [[a], [], [b]]`. -/
def splitChar (c : Char) : List Char → List (List Char)
  | [] => [[]]
  | x :: xs =>
    match splitChar c xs with
    | [] => [[x]]
    | g :: gs => if x = c then [] :: g :: gs else (x :: g) :: gs

/-- `pathlib.PurePath.name`: the final path component.  Parsing drops empty
components and single-dot components, as `pathlib` does. -/
def pathName (p : String) : String :=
  (((splitChar '/' p.data).map String.mk).filter
    (fun s => s ≠ "" ∧ s ≠ ".")).getLastD ""

/-- `pathlib.PurePath.suffix` computed from the final component `n`: the
substring from the last dot, provided that dot is neither the first nor the
last character of `n`; otherwise the empty string. -/
def nameSuffix (n : String) : String :=
  let cs := n.data
  match ((List.range cs.length).filter (fun i => cs.getD i ' ' = '.')).getLast? with
  | some i => if 0 < i ∧ i + 1 < cs.length then String.mk (cs.drop i) else ""
  | none => ""

/-- `pathlib.PurePath.suffix` of a whole path string. -/
def pathSuffix (p : String) : String := nameSuffix (pathName p)

/-- Python's `str.lower()`: lower-case every character. -/
def strToLower (s : String) : String := String.mk (s.data.map Char.toLower)

/-- `"-" * 80` and friends: a string of `n` copies of `c`. -/
def strRepeat (c : Char) (n : Nat) : String := String.mk (List.replicate n c)

/-- Python format spec `{s:<w}`: left-align `s` in a field of width `w`,
padding with spaces on the right (no truncation). -/
def padRight (s : String) (w : Nat) : String :=
  s ++ strRepeat ' ' (w - s.length)

/-- Python format spec `{s:>w}`: right-align `s` in a field of width `w`,
padding with spaces on the left (no truncation). -/
def padLeft (s : String) (w : Nat) : String :=
  strRepeat ' ' (w - s.length) ++ s

/-- Group a reversed digit list into blocks of three, inserting `,` between
blocks: the recursive core of Python's `{n:,}` thousands grouping. -/
def groupRev : List Char → List Char
  | [] => []
  | [a] => [a]
  | [a, b] => [a, b]
  | [a, b, c] => [a, b, c]
  | a :: b :: c :: d :: rest => a :: b :: c :: ',' :: groupRev (d :: rest)

/-- Python's `f"{n:,}"` for a natural number: decimal digits with a comma
every three digits, counted from the right. -/
def pyCommaFormat (n : Nat) : String :=
  String.mk (groupRev (Nat.repr n).data.reverse).reverse

/-- The analyzer instance: `self.pbix_path`, bound at construction. -/
structure PBIXAnalyzer where
  pbix_path : String
deriving DecidableEq, Repr

/-- `PBIXAnalyzer.__init__`: store the path, raise `FileNotFoundError` if it
does not exist, then raise `ValueError` if its suffix, lower-cased, is not
".pbix". -/
def PBIXAnalyzer.init (fs : FS) (pbix_path : String) : Except PyError PBIXAnalyzer :=
  if (fs pbix_path).isSome = false then
    .error (.fileNotFoundError ("PBIX file not found: " ++ pbix_path))
  else if strToLower (pathSuffix pbix_path) ≠ ".pbix" then
    .error (.valueError ("File must have .pbix extension, got: " ++ pathSuffix pbix_path))
  else
    .ok ⟨pbix_path⟩

/-- One record of `list_contents`: the dict with `name` and `size` keys. -/
structure EntryRecord where
  name : String
  size : String
deriving DecidableEq, Repr

/-- The record built for one `ZipInfo` inside the `list_contents` loop:
`{'name': file_info.filename, 'size': f"{file_info.file_size:,} bytes"}`. -/
def mkRecord (fi : ZipInfo) : EntryRecord :=
  ⟨fi.filename, pyCommaFormat fi.file_size ++ " bytes"⟩

/-- `PBIXAnalyzer.list_contents`: open the bound path as a ZIP archive and
return one record per entry in the archive's stored order; `BadZipFile`
is translated to a `ValueError`, and a path missing at call time surfaces
as the `FileNotFoundError` that `open` would raise (uncaught). -/
def PBIXAnalyzer.list_contents (a : PBIXAnalyzer) (fs : FS) :
    Except PyError (List EntryRecord) :=
  match fs a.pbix_path with
  | none => .error (.fileNotFoundError a.pbix_path)
  | some f =>
    match f.zipData with
    | none => .error (.valueError ("Failed to open " ++ a.pbix_path ++
        " as a ZIP file. File may be corrupted."))
    | some filelist => .ok (filelist.map mkRecord)

/-- `PBIXAnalyzer.print_contents`: the list of strings passed to `print`, in
order — header naming the file, an 80-dash rule, one aligned line per entry
and the total count; errors from `list_contents` propagate unchanged. -/
def PBIXAnalyzer.print_contents (a : PBIXAnalyzer) (fs : FS) :
    Except PyError (List String) :=
  match a.list_contents fs with
  | .error e => .error e
  | .ok contents =>
    .ok (("\nContents of " ++ pathName a.pbix_path ++ ":") ::
      strRepeat '-' 80 ::
      contents.map (fun item => padRight item.name 60 ++ " " ++ padLeft item.size 15) ++
      ["\nTotal files: " ++ toString contents.length])

/-- `list_contents` with the instance state and filesystem threaded through
explicitly: the method reads but never writes either, so both components are
returned unchanged. -/
def PBIXAnalyzer.list_contentsS (a : PBIXAnalyzer) (fs : FS) :
    Except PyError (List EntryRecord) × PBIXAnalyzer × FS :=
  (a.list_contents fs, a, fs)

/-- `print_contents` with the instance state and filesystem threaded through
explicitly: it writes only to standard output, so both are unchanged. -/
def PBIXAnalyzer.print_contentsS (a : PBIXAnalyzer) (fs : FS) :
    Except PyError (List String) × PBIXAnalyzer × FS :=
  (a.print_contents fs, a, fs)

/-- A concrete filesystem used to instantiate the theorems: a well-formed
two-entry archive, an empty archive, a corrupt archive, a text file, a
bare dot-file named ".pbix", and everything else absent. -/
def exFS : FS := fun p =>
  if p = "model.pbix" then some ⟨some [⟨"DataModel", 2048⟩, ⟨"Report/Layout", 512⟩]⟩
  else if p = "empty.pbix" then some ⟨some []⟩
  else if p = "bad.pbix" then some ⟨none⟩
  else if p = "report.txt" then some ⟨some []⟩
  else if p = ".pbix" then some ⟨some []⟩
  else none

/-- A second filesystem that agrees with `exFS` on "model.pbix" but on
nothing else, used to instantiate the determinism theorem. -/
def exFS2 : FS := fun p => if p = "model.pbix" then exFS p else none

/-!  Auxiliary lemmas about decimal digits and thousands grouping. -/

/-- No decimal digit character is a comma. -/
lemma digitChar_ne_comma : ∀ m, m < 10 → Nat.digitChar m ≠ ',' := by decide

/-- Every character that `Nat.toDigitsCore` adds in front of its accumulator
is the digit character of some value below the base. -/
lemma toDigitsCore_mem (f : Nat) : ∀ (n : Nat) (l : List Char) (c : Char),
    c ∈ Nat.toDigitsCore 10 f n l → c ∈ l ∨ ∃ m, m < 10 ∧ c = Nat.digitChar m := by
  induction f with
  | zero => intro n l c hc; exact .inl hc
  | succ f ih =>
    intro n l c hc
    simp only [Nat.toDigitsCore] at hc
    split at hc
    · rcases List.mem_cons.mp hc with h | h
      · exact .inr ⟨n % 10, Nat.mod_lt _ (by omega), h⟩
      · exact .inl h
    · rcases ih _ _ _ hc with h | h
      · rcases List.mem_cons.mp h with h | h
        · exact .inr ⟨n % 10, Nat.mod_lt _ (by omega), h⟩
        · exact .inl h
      · exact .inr h

/-- The decimal representation of a natural number contains no comma. -/
lemma comma_not_mem_repr (n : Nat) : ',' ∉ (Nat.repr n).data := by
  intro hc
  simp only [Nat.repr, Nat.toDigits, List.asString] at hc
  rcases toDigitsCore_mem (n + 1) n [] ',' hc with h | ⟨m, hm, he⟩
  · exact List.not_mem_nil _ h
  · exact digitChar_ne_comma m hm he.symm

/-- Dropping the commas inserted by `groupRev` recovers the input, provided
the input itself contains no comma. -/
lemma groupRev_filter (ds : List Char) (h : ',' ∉ ds) :
    (groupRev ds).filter (fun c => c ≠ ',') = ds := by
  induction ds using groupRev.induct with
  | case1 => rfl
  | case2 a => simp_all [groupRev, ne_comm]
  | case3 a b => simp_all [groupRev, ne_comm]
  | case4 a b c => simp_all [groupRev, ne_comm]
  | case5 a b c d rest ih => simp_all [groupRev, ne_comm]

/-- Removing the grouping separators from `pyCommaFormat n` yields exactly
the plain decimal representation of `n`. -/
lemma pyCommaFormat_strip (n : Nat) :
    (pyCommaFormat n).data.filter (fun c => c ≠ ',') = (Nat.repr n).data := by
  show ((groupRev (Nat.repr n).data.reverse).reverse).filter (fun c => c ≠ ',') = _
  rw [List.filter_reverse,
    groupRev_filter _ (by simpa using comma_not_mem_repr n), List.reverse_reverse]

end PbixAnalyzer

namespace PbixAnalyzer

/-- C1: for every existing path whose extension, lower-cased, is ".pbix"
and whose bytes form a well-formed ZIP container, construction succeeds and
`list_contents` returns exactly one record per archive entry, in the
archive's stored central-directory order, with the sequence length equal to
the archive's entry count. -/
theorem list_contents_ok (fs : FS) (p : String) (f : FsFile) (entries : List ZipInfo)
    (hex : fs p = some f) (hsuf : strToLower (pathSuffix p) = ".pbix")
    (hzip : f.zipData = some entries) :
    PBIXAnalyzer.init fs p = .ok ⟨p⟩ ∧
    (PBIXAnalyzer.mk p).list_contents fs = .ok (entries.map mkRecord) ∧
    (entries.map mkRecord).length = entries.length := by
  refine ⟨?_, ?_, List.length_map _ _⟩
  · simp [PBIXAnalyzer.init, hex, hsuf]
  · simp [PBIXAnalyzer.list_contents, hex, hzip]

/-- C1 witness: the two-entry archive "model.pbix" of the example
filesystem lists as two records in directory order. -/
theorem list_contents_ok_witness :
    exFS "model.pbix" = some ⟨some [⟨"DataModel", 2048⟩, ⟨"Report/Layout", 512⟩]⟩ ∧
    strToLower (pathSuffix "model.pbix") = ".pbix" ∧
    (PBIXAnalyzer.init exFS "model.pbix" = .ok ⟨"model.pbix"⟩ ∧
      (PBIXAnalyzer.mk "model.pbix").list_contents exFS =
        .ok [⟨"DataModel", "2,048 bytes"⟩, ⟨"Report/Layout", "512 bytes"⟩] ∧
      ([(⟨"DataModel", 2048⟩ : ZipInfo), ⟨"Report/Layout", 512⟩].map mkRecord).length =
        [(⟨"DataModel", 2048⟩ : ZipInfo), ⟨"Report/Layout", 512⟩].length) :=
  ⟨rfl, by decide,
   list_contents_ok exFS "model.pbix" ⟨some [⟨"DataModel", 2048⟩, ⟨"Report/Layout", 512⟩]⟩
     [⟨"DataModel", 2048⟩, ⟨"Report/Layout", 512⟩] rfl (by decide) rfl⟩

/-- C2 counterexample: the three error conditions are NOT raised as three
distinct exception classes.  On the example filesystem, the invalid-extension
failure of construction on "report.txt" and the corrupt-archive failure of
`list_contents` on "bad.pbix" carry the very same exception class
(`ValueError`), while only the not-found condition gets a class of its own
(`FileNotFoundError`). -/
theorem errorKinds_not_distinct :
    (errKind (PBIXAnalyzer.init exFS "report.txt")).isSome = true ∧
    (errKind ((PBIXAnalyzer.mk "bad.pbix").list_contents exFS)).isSome = true ∧
    errKind (PBIXAnalyzer.init exFS "report.txt") =
      errKind ((PBIXAnalyzer.mk "bad.pbix").list_contents exFS) ∧
    errKind (PBIXAnalyzer.init exFS "missing.pbix") = some .fileNotFound := by
  decide

/-- C2 amended: the not-found condition is raised as the distinct class
`FileNotFoundError`, while the invalid-extension and corrupt-archive
conditions share the class `ValueError`; a caller distinguishes the latter
two by which operation raised the error, since a construction error of class
`ValueError` occurs exactly when the path exists with a bad extension, and
an enumeration error after successful construction is always of class
`ValueError` and occurs exactly on a corrupt archive. -/
theorem errorKinds_by_operation (fs : FS) (p : String) :
    (∀ e, PBIXAnalyzer.init fs p = .error e →
      ((e.kind = .fileNotFound ↔ fs p = none) ∧
       (e.kind = .value ↔
         (fs p).isSome = true ∧ strToLower (pathSuffix p) ≠ ".pbix"))) ∧
    (∀ a f e, PBIXAnalyzer.init fs p = .ok a → fs p = some f →
      a.list_contents fs = .error e → e.kind = .value ∧ f.zipData = none) := by
  constructor
  · intro e he
    unfold PBIXAnalyzer.init at he
    rcases hfs : fs p with _ | f
    · simp [hfs] at he
      cases he
      simp [PyError.kind, hfs]
    · rw [hfs] at he
      simp only [Option.isSome_some] at he
      by_cases h2 : strToLower (pathSuffix p) ≠ ".pbix"
      · rw [if_neg (by decide), if_pos h2] at he
        cases he
        simp [PyError.kind, hfs, h2]
      · rw [if_neg (by decide), if_neg h2] at he
        cases he
  · intro a f e hok hfs hl
    unfold PBIXAnalyzer.init at hok
    by_cases h1 : (fs p).isSome = false
    · simp [h1] at hok
    · by_cases h2 : strToLower (pathSuffix p) ≠ ".pbix"
      · simp [h1, h2] at hok
      · simp only [h1, h2, if_false, if_neg] at hok
        have ha : a = ⟨p⟩ := by
          cases hok
          rfl
        subst ha
        unfold PBIXAnalyzer.list_contents at hl
        simp only [hfs] at hl
        rcases hz : f.zipData with _ | es
        · rw [hz] at hl
          cases hl
          exact ⟨rfl, rfl⟩
        · rw [hz] at hl
          cases hl

/-- C2 amended witness: on the example filesystem, "report.txt" yields a
construction error of class `ValueError`, and the corrupt archive
"bad.pbix" passes construction and yields an enumeration error of class
`ValueError`. -/
theorem errorKinds_by_operation_witness :
    PBIXAnalyzer.init exFS "report.txt" =
      .error (.valueError "File must have .pbix extension, got: .txt") ∧
    ((PyError.valueError "File must have .pbix extension, got: .txt").kind = .value ↔
      (exFS "report.txt").isSome = true ∧
        strToLower (pathSuffix "report.txt") ≠ ".pbix") ∧
    PBIXAnalyzer.init exFS "bad.pbix" = .ok ⟨"bad.pbix"⟩ ∧
    exFS "bad.pbix" = some ⟨none⟩ ∧
    (PBIXAnalyzer.mk "bad.pbix").list_contents exFS =
      .error (.valueError
        "Failed to open bad.pbix as a ZIP file. File may be corrupted.") ∧
    ((PyError.valueError
        "Failed to open bad.pbix as a ZIP file. File may be corrupted.").kind = .value ∧
      (⟨none⟩ : FsFile).zipData = none) :=
  ⟨rfl, ((errorKinds_by_operation exFS "report.txt").1 _ rfl).2, rfl, rfl, rfl,
   (errorKinds_by_operation exFS "bad.pbix").2 ⟨"bad.pbix"⟩ ⟨none⟩ _ rfl rfl rfl⟩

/-- C3: for every existing path with the ".pbix" extension whose bytes are
not a valid ZIP container, construction succeeds (the check is lazy) and
`list_contents` fails with the corrupt-archive `ValueError`. -/
theorem corrupt_archive_lazy (fs : FS) (p : String) (f : FsFile)
    (hex : fs p = some f) (hsuf : strToLower (pathSuffix p) = ".pbix")
    (hzip : f.zipData = none) :
    PBIXAnalyzer.init fs p = .ok ⟨p⟩ ∧
    (PBIXAnalyzer.mk p).list_contents fs =
      .error (.valueError ("Failed to open " ++ p ++
        " as a ZIP file. File may be corrupted.")) := by
  constructor
  · simp [PBIXAnalyzer.init, hex, hsuf]
  · simp [PBIXAnalyzer.list_contents, hex, hzip]

/-- C3 witness: the corrupt file "bad.pbix" passes construction and fails
enumeration with the corrupt-archive error. -/
theorem corrupt_archive_lazy_witness :
    exFS "bad.pbix" = some ⟨none⟩ ∧
    strToLower (pathSuffix "bad.pbix") = ".pbix" ∧
    (PBIXAnalyzer.init exFS "bad.pbix" = .ok ⟨"bad.pbix"⟩ ∧
      (PBIXAnalyzer.mk "bad.pbix").list_contents exFS =
        .error (.valueError ("Failed to open bad.pbix as a ZIP file. " ++
          "File may be corrupted."))) :=
  ⟨rfl, by decide, corrupt_archive_lazy exFS "bad.pbix" ⟨none⟩ rfl (by decide) rfl⟩

/-- C4: construction checks existence before extension.  A non-existent path
fails with `FileNotFoundError` regardless of its extension, and an existing
path whose lower-cased suffix is not ".pbix" fails with `ValueError`. -/
theorem construct_checks_order (fs : FS) (p : String) :
    (fs p = none →
      PBIXAnalyzer.init fs p =
        .error (.fileNotFoundError ("PBIX file not found: " ++ p))) ∧
    (∀ f, fs p = some f → strToLower (pathSuffix p) ≠ ".pbix" →
      PBIXAnalyzer.init fs p =
        .error (.valueError ("File must have .pbix extension, got: " ++ pathSuffix p))) := by
  constructor
  · intro h
    simp [PBIXAnalyzer.init, h]
  · intro f h hne
    simp [PBIXAnalyzer.init, h, hne]

/-- C4 witness: "missing.pbix" does not exist and fails with
`FileNotFoundError` despite its extension; the existing "report.txt" fails
with the extension `ValueError`. -/
theorem construct_checks_order_witness :
    exFS "missing.pbix" = none ∧
    PBIXAnalyzer.init exFS "missing.pbix" =
      .error (.fileNotFoundError "PBIX file not found: missing.pbix") ∧
    exFS "report.txt" = some ⟨some []⟩ ∧
    strToLower (pathSuffix "report.txt") ≠ ".pbix" ∧
    PBIXAnalyzer.init exFS "report.txt" =
      .error (.valueError "File must have .pbix extension, got: .txt") :=
  ⟨rfl, (construct_checks_order exFS "missing.pbix").1 rfl, rfl, by decide,
   (construct_checks_order exFS "report.txt").2 ⟨some []⟩ rfl (by decide)⟩

/-- C5: every record produced by `list_contents` has its size field equal to
the decimal byte count with a comma every three digits followed by the
literal suffix " bytes"; removing the commas recovers the plain decimal
representation, and 2048 renders as "2,048". -/
theorem size_field_format (fs : FS) (p : String) (f : FsFile) (entries : List ZipInfo)
    (hex : fs p = some f) (hsuf : strToLower (pathSuffix p) = ".pbix")
    (hzip : f.zipData = some entries) :
    (PBIXAnalyzer.mk p).list_contents fs = .ok (entries.map mkRecord) ∧
    (∀ fi ∈ entries, (mkRecord fi).size = pyCommaFormat fi.file_size ++ " bytes" ∧
      (pyCommaFormat fi.file_size).data.filter (fun c => c ≠ ',') =
        (Nat.repr fi.file_size).data) ∧
    pyCommaFormat 2048 = "2,048" := by
  refine ⟨?_, fun fi _ => ⟨rfl, pyCommaFormat_strip fi.file_size⟩, by decide⟩
  simp [PBIXAnalyzer.list_contents, hex, hzip]

/-- C5 witness: in "model.pbix", the 2048-byte entry renders as
"2,048 bytes" and the 512-byte entry as "512 bytes". -/
theorem size_field_format_witness :
    exFS "model.pbix" = some ⟨some [⟨"DataModel", 2048⟩, ⟨"Report/Layout", 512⟩]⟩ ∧
    strToLower (pathSuffix "model.pbix") = ".pbix" ∧
    ((PBIXAnalyzer.mk "model.pbix").list_contents exFS =
        .ok [⟨"DataModel", "2,048 bytes"⟩, ⟨"Report/Layout", "512 bytes"⟩] ∧
      (∀ fi ∈ [(⟨"DataModel", 2048⟩ : ZipInfo), ⟨"Report/Layout", 512⟩],
        (mkRecord fi).size = pyCommaFormat fi.file_size ++ " bytes" ∧
        (pyCommaFormat fi.file_size).data.filter (fun c => c ≠ ',') =
          (Nat.repr fi.file_size).data) ∧
      pyCommaFormat 2048 = "2,048") :=
  ⟨rfl, by decide,
   size_field_format exFS "model.pbix" ⟨some [⟨"DataModel", 2048⟩, ⟨"Report/Layout", 512⟩]⟩
     [⟨"DataModel", 2048⟩, ⟨"Report/Layout", 512⟩] rfl (by decide) rfl⟩

/-- C6: on a well-formed archive, `print_contents` writes a header naming
the source file, a separator that is 80 repeated dashes, one line per entry
with the name left-aligned in a field at least 60 wide and the size
right-aligned in a field at least 15 wide, and a final summary line with the
total entry count. -/
theorem print_contents_layout (fs : FS) (p : String) (f : FsFile) (entries : List ZipInfo)
    (hex : fs p = some f) (hsuf : strToLower (pathSuffix p) = ".pbix")
    (hzip : f.zipData = some entries) :
    (PBIXAnalyzer.mk p).print_contents fs = .ok (
      ("\nContents of " ++ pathName p ++ ":") ::
      strRepeat '-' 80 ::
      (entries.map mkRecord).map
        (fun item => padRight item.name 60 ++ " " ++ padLeft item.size 15) ++
      ["\nTotal files: " ++ toString entries.length]) ∧
    strRepeat '-' 80 = String.mk (List.replicate 80 '-') ∧
    (strRepeat '-' 80).length = 80 ∧
    (∀ s : String, 60 ≤ (padRight s 60).length ∧ ∃ t, padRight s 60 = s ++ t) ∧
    (∀ s : String, 15 ≤ (padLeft s 15).length ∧ ∃ t, padLeft s 15 = t ++ s) := by
  refine ⟨?_, rfl, rfl, fun s => ⟨?_, ⟨_, rfl⟩⟩, fun s => ⟨?_, ⟨_, rfl⟩⟩⟩
  · have hl : (PBIXAnalyzer.mk p).list_contents fs = .ok (entries.map mkRecord) := by
      simp [PBIXAnalyzer.list_contents, hex, hzip]
    simp [PBIXAnalyzer.print_contents, hl]
  · show 60 ≤ (s ++ strRepeat ' ' (60 - s.length)).length
    rw [String.length_append]
    have : (strRepeat ' ' (60 - s.length)).length = 60 - s.length := List.length_replicate _ _
    omega
  · show 15 ≤ (strRepeat ' ' (15 - s.length) ++ s).length
    rw [String.length_append]
    have : (strRepeat ' ' (15 - s.length)).length = 15 - s.length := List.length_replicate _ _
    omega

/-- C6 witness: the report for "model.pbix" on the example filesystem. -/
theorem print_contents_layout_witness :
    exFS "model.pbix" = some ⟨some [⟨"DataModel", 2048⟩, ⟨"Report/Layout", 512⟩]⟩ ∧
    strToLower (pathSuffix "model.pbix") = ".pbix" ∧
    ((PBIXAnalyzer.mk "model.pbix").print_contents exFS = .ok (
        "\nContents of model.pbix:" ::
        strRepeat '-' 80 ::
        ([(⟨"DataModel", 2048⟩ : ZipInfo), ⟨"Report/Layout", 512⟩].map mkRecord).map
          (fun item => padRight item.name 60 ++ " " ++ padLeft item.size 15) ++
        ["\nTotal files: " ++ toString
          ([(⟨"DataModel", 2048⟩ : ZipInfo), ⟨"Report/Layout", 512⟩].length)]) ∧
      strRepeat '-' 80 = String.mk (List.replicate 80 '-') ∧
      (strRepeat '-' 80).length = 80 ∧
      (∀ s : String, 60 ≤ (padRight s 60).length ∧ ∃ t, padRight s 60 = s ++ t) ∧
      (∀ s : String, 15 ≤ (padLeft s 15).length ∧ ∃ t, padLeft s 15 = t ++ s)) :=
  ⟨rfl, by decide,
   print_contents_layout exFS "model.pbix"
     ⟨some [⟨"DataModel", 2048⟩, ⟨"Report/Layout", 512⟩]⟩
     [⟨"DataModel", 2048⟩, ⟨"Report/Layout", 512⟩] rfl (by decide) rfl⟩

/-- C7: enumeration is deterministic and read-only.  Two calls of
`list_contents` against filesystem states that agree on the bound path — in
particular two calls on the same unmodified file — return identical
sequences. -/
theorem list_contents_deterministic (a : PBIXAnalyzer) (fs1 fs2 : FS)
    (h : fs1 a.pbix_path = fs2 a.pbix_path) :
    a.list_contents fs1 = a.list_contents fs2 := by
  unfold PBIXAnalyzer.list_contents
  rw [h]

/-- C7 witness: the example filesystem and a second one agreeing only on
"model.pbix" produce the same listing. -/
theorem list_contents_deterministic_witness :
    exFS "model.pbix" = exFS2 "model.pbix" ∧
    (PBIXAnalyzer.mk "model.pbix").list_contents exFS =
      (PBIXAnalyzer.mk "model.pbix").list_contents exFS2 :=
  ⟨rfl, list_contents_deterministic ⟨"model.pbix"⟩ exFS exFS2 rfl⟩

/-- C8: successful construction establishes that the bound path exists and
carries the case-insensitive ".pbix" extension, and neither enumeration nor
rendering reassigns the bound path or mutates the filesystem: both return
the instance state and the filesystem unchanged. -/
theorem construct_invariant (fs : FS) (p : String) (a : PBIXAnalyzer)
    (h : PBIXAnalyzer.init fs p = .ok a) :
    a.pbix_path = p ∧
    (fs a.pbix_path).isSome = true ∧
    strToLower (pathSuffix a.pbix_path) = ".pbix" ∧
    (∀ g : FS, a.list_contentsS g = (a.list_contents g, a, g)) ∧
    (∀ g : FS, a.print_contentsS g = (a.print_contents g, a, g)) := by
  unfold PBIXAnalyzer.init at h
  by_cases h1 : (fs p).isSome = false
  · simp [h1] at h
  · by_cases h2 : strToLower (pathSuffix p) ≠ ".pbix"
    · simp [h1, h2] at h
    · simp only [h1, h2, if_false, if_neg] at h
      have ha : a = ⟨p⟩ := by
        cases h
        rfl
      subst ha
      refine ⟨rfl, ?_, not_not.mp h2, fun g => rfl, fun g => rfl⟩
      cases hb : (fs p).isSome
      · exact absurd hb h1
      · rfl

/-- C8 witness: the analyzer constructed on "model.pbix" satisfies the
invariant and its operations leave the state unchanged. -/
theorem construct_invariant_witness :
    PBIXAnalyzer.init exFS "model.pbix" = .ok ⟨"model.pbix"⟩ ∧
    ((PBIXAnalyzer.mk "model.pbix").pbix_path = "model.pbix" ∧
      (exFS (PBIXAnalyzer.mk "model.pbix").pbix_path).isSome = true ∧
      strToLower (pathSuffix (PBIXAnalyzer.mk "model.pbix").pbix_path) = ".pbix" ∧
      (∀ g : FS, (PBIXAnalyzer.mk "model.pbix").list_contentsS g =
        ((PBIXAnalyzer.mk "model.pbix").list_contents g, PBIXAnalyzer.mk "model.pbix", g)) ∧
      (∀ g : FS, (PBIXAnalyzer.mk "model.pbix").print_contentsS g =
        ((PBIXAnalyzer.mk "model.pbix").print_contents g, PBIXAnalyzer.mk "model.pbix", g))) :=
  ⟨rfl, construct_invariant exFS "model.pbix" ⟨"model.pbix"⟩ rfl⟩

/-- C9: an existing file whose final path component is exactly ".pbix" has
an empty `pathlib` suffix, so construction fails with the invalid-extension
`ValueError` even though the name ends in ".pbix". -/
theorem bare_dotfile_invalid_extension (fs : FS) (p : String) (f : FsFile)
    (hname : pathName p = ".pbix") (hex : fs p = some f) :
    pathSuffix p = "" ∧
    PBIXAnalyzer.init fs p =
      .error (.valueError ("File must have .pbix extension, got: " ++ pathSuffix p)) := by
  have hs : pathSuffix p = "" := by
    unfold pathSuffix
    rw [hname]
    decide
  refine ⟨hs, ?_⟩
  simp [PBIXAnalyzer.init, hex, hs, strToLower]

/-- C9 witness: the existing bare dot-file ".pbix" is rejected with the
invalid-extension error. -/
theorem bare_dotfile_invalid_extension_witness :
    pathName ".pbix" = ".pbix" ∧ exFS ".pbix" = some ⟨some []⟩ ∧
    (pathSuffix ".pbix" = "" ∧
      PBIXAnalyzer.init exFS ".pbix" =
        .error (.valueError ("File must have .pbix extension, got: " ++ pathSuffix ".pbix"))) :=
  ⟨by decide, rfl, bare_dotfile_invalid_extension exFS ".pbix" ⟨some []⟩ (by decide) rfl⟩

/-- C10: on a well-formed ZIP archive with zero entries, `list_contents`
returns the empty sequence and `print_contents` writes the header, the
separator, no entry lines and the final line "Total files: 0". -/
theorem empty_archive (fs : FS) (p : String) (f : FsFile)
    (hex : fs p = some f) (hsuf : strToLower (pathSuffix p) = ".pbix")
    (hzip : f.zipData = some []) :
    (PBIXAnalyzer.mk p).list_contents fs = .ok [] ∧
    (PBIXAnalyzer.mk p).print_contents fs = .ok
      [("\nContents of " ++ pathName p ++ ":"), strRepeat '-' 80, "\nTotal files: 0"] := by
  have hl : (PBIXAnalyzer.mk p).list_contents fs = .ok [] := by
    simp [PBIXAnalyzer.list_contents, hex, hzip]
  refine ⟨hl, ?_⟩
  simp only [PBIXAnalyzer.print_contents, hl]
  rfl

/-- C10 witness: the zero-entry archive "empty.pbix" lists as the empty
sequence and prints the three-line report ending in "Total files: 0". -/
theorem empty_archive_witness :
    exFS "empty.pbix" = some ⟨some []⟩ ∧
    strToLower (pathSuffix "empty.pbix") = ".pbix" ∧
    ((PBIXAnalyzer.mk "empty.pbix").list_contents exFS = .ok [] ∧
      (PBIXAnalyzer.mk "empty.pbix").print_contents exFS = .ok
        ["\nContents of empty.pbix:", strRepeat '-' 80, "\nTotal files: 0"]) :=
  ⟨rfl, by decide, empty_archive exFS "empty.pbix" ⟨some []⟩ rfl (by decide) rfl⟩

end PbixAnalyzer
